import Mathlib

/-!
Verification of the document-ingestion pipeline (chunker, embedder, vector
index, pipeline orchestrator, response cache and confidence formatter)
against its natural-language specification.

The Lean definitions below are a shallow embedding of the Python sources:

  * `src/pipeline/enhanced_chunker.py`   (`TextChunker.chunk_text`)
  * `src/pipeline/enhanced_embedder.py`  (`EmbeddingGenerator.generate_embeddings`)
  * `src/pipeline/enhanced_vector_db.py` (`EnhancedVectorDB.add_documents_with_metadata`,
                                          `EnhancedVectorDB.query_with_metadata`)
  * `src/pipeline/enhanced_pipeline.py`  (`NLPPipeline.process_document`)
  * `src/core/chatbot_engine.py`         (`ResponseCache`, `OptimizedChatbotEngine`)

External capabilities (the sentence-transformers embedding model, the
ChromaDB persistent collection, file text extraction and text
normalization) are modelled as explicit function parameters, following the
specification's treatment of them as capability interfaces.  Floating
point numbers are modelled as rationals; Python dictionaries carrying a
fixed field set are modelled as structures; Python exceptions are
modelled with `Except`.
-/

set_option maxRecDepth 100000

namespace DocIngestion

/-! ### Python string helpers -/

/-- Truthiness test used by Python's `if not text or not text.strip()`:
the string is empty or consists only of whitespace characters. -/
def pyIsBlank (text : String) : Bool :=
  text.data.all Char.isWhitespace

/-- Word count as computed by Python's `len(chunk.split())`: split on
whitespace, dropping empty pieces. -/
def pyWordCount (s : String) : Nat :=
  ((s.split Char.isWhitespace).filter (fun w => w ≠ "")).length

/-- Python slicing `s[:n]` on a string (character prefix). -/
def pyTake (s : String) (n : Nat) : String :=
  ⟨s.data.take n⟩

/-- Python `s.lower()` (ASCII model). -/
def pyLower (s : String) : String :=
  ⟨s.data.map Char.toLower⟩

/-- Python `s.strip()`: remove leading and trailing whitespace. -/
def pyStrip (s : String) : String :=
  ⟨((s.data.dropWhile Char.isWhitespace).reverse.dropWhile Char.isWhitespace).reverse⟩

/-- Decimal rendering of a natural number, as Python's `str(i)` inside an
f-string such as `f"{doc_id}_{i}"`. -/
def pyStr (n : Nat) : String :=
  if n = 0 then "0" else ⟨((Nat.digits 10 n).map Nat.digitChar).reverse⟩

/-- Inverse of `Nat.digitChar` on decimal digits. -/
def undigitChar (c : Char) : Nat := c.toNat - 48

theorem undigitChar_digitChar_all : ∀ d < 10, undigitChar (Nat.digitChar d) = d := by
  decide

theorem undigitChar_digitChar {d : Nat} (hd : d < 10) :
    undigitChar (Nat.digitChar d) = d :=
  undigitChar_digitChar_all d hd

theorem digitChar_ne_zeroChar_all : ∀ d < 10, d ≠ 0 → Nat.digitChar d ≠ '0' := by
  decide

theorem digitChar_ne_zeroChar {d : Nat} (hd : d < 10) (hnz : d ≠ 0) :
    Nat.digitChar d ≠ '0' :=
  digitChar_ne_zeroChar_all d hd hnz

theorem pyStr_injective : Function.Injective pyStr := by
  intro m n h
  unfold pyStr at h
  by_cases hm : m = 0 <;> by_cases hn : n = 0
  · omega
  · exfalso
    simp only [hm, if_pos rfl, if_neg hn] at h
    have hdata := congrArg String.data h
    simp only [String.data] at hdata
    have hrev : (Nat.digits 10 n).map Nat.digitChar = ['0'] := by
      have := congrArg List.reverse hdata
      simpa using this.symm
    rcases hds : Nat.digits 10 n with _ | ⟨d, ds⟩
    · exact hn (Nat.digits_eq_nil_iff_eq_zero.mp hds)
    · rw [hds] at hrev
      rcases ds with _ | ⟨d', ds'⟩
      · simp only [List.map_cons, List.map_nil, List.cons.injEq, and_true] at hrev
        have hdlt : d < 10 := Nat.digits_lt_base (by norm_num) (hds ▸ List.mem_cons_self d [])
        have hd0 : d = 0 := by
          by_contra hd0
          exact digitChar_ne_zeroChar hdlt hd0 hrev
        have : n = Nat.ofDigits 10 (Nat.digits 10 n) := (Nat.ofDigits_digits 10 n).symm
        rw [hds, hd0] at this
        simp [Nat.ofDigits] at this
        exact hn this
      · simp at hrev
  · exfalso
    simp only [hn, if_pos rfl, if_neg hm] at h
    have hdata := congrArg String.data h
    simp only [String.data] at hdata
    have hrev : (Nat.digits 10 m).map Nat.digitChar = ['0'] := by
      have := congrArg List.reverse hdata
      simpa using this
    rcases hds : Nat.digits 10 m with _ | ⟨d, ds⟩
    · exact hm (Nat.digits_eq_nil_iff_eq_zero.mp hds)
    · rw [hds] at hrev
      rcases ds with _ | ⟨d', ds'⟩
      · simp only [List.map_cons, List.map_nil, List.cons.injEq, and_true] at hrev
        have hdlt : d < 10 := Nat.digits_lt_base (by norm_num) (hds ▸ List.mem_cons_self d [])
        have hd0 : d = 0 := by
          by_contra hd0
          exact digitChar_ne_zeroChar hdlt hd0 hrev
        have : m = Nat.ofDigits 10 (Nat.digits 10 m) := (Nat.ofDigits_digits 10 m).symm
        rw [hds, hd0] at this
        simp [Nat.ofDigits] at this
        exact hm this
      · simp at hrev
  · simp only [if_neg hm, if_neg hn] at h
    have hdata := congrArg String.data h
    simp only [String.data] at hdata
    have hmap : (Nat.digits 10 m).map Nat.digitChar = (Nat.digits 10 n).map Nat.digitChar :=
      List.reverse_injective hdata
    have hdig : Nat.digits 10 m = Nat.digits 10 n := by
      have hback : ∀ k : Nat,
          ((Nat.digits 10 k).map Nat.digitChar).map undigitChar = Nat.digits 10 k := by
        intro k
        rw [List.map_map]
        have : ∀ d ∈ Nat.digits 10 k, (undigitChar ∘ Nat.digitChar) d = id d := by
          intro d hd
          exact undigitChar_digitChar (Nat.digits_lt_base (by norm_num) hd)
        rw [List.map_congr_left this, List.map_id]
      calc Nat.digits 10 m
          = ((Nat.digits 10 m).map Nat.digitChar).map undigitChar := (hback m).symm
        _ = ((Nat.digits 10 n).map Nat.digitChar).map undigitChar := by rw [hmap]
        _ = Nat.digits 10 n := hback n
    exact Nat.digits_inj_iff.mp hdig

theorem string_append_left_cancel {p a b : String} (h : p ++ a = p ++ b) : a = b := by
  have hdata := congrArg String.data h
  rw [String.data_append, String.data_append] at hdata
  have hd := List.append_cancel_left hdata
  cases a; cases b
  simp only [String.data] at hd
  rw [hd]

/-! ### Chunker (`src/pipeline/enhanced_chunker.py`) -/

/-- Per-chunk metadata record built by `TextChunker.chunk_text`.
`doc_id` is `Option String` because the Python parameter defaults to
`None`. -/
structure Chunk where
  text : String
  chunk_id : String
  doc_id : Option String
  chunk_index : Nat
  char_count : Nat
  word_count : Nat
  chunk_size_config : Nat
  chunk_overlap_config : Nat
deriving DecidableEq, Repr

/-- Chunker configuration (`TextChunker.__init__`); the separator list and
the `RecursiveCharacterTextSplitter` it configures are external (langchain),
so the split itself is a function parameter below. -/
structure TextChunker where
  chunk_size : Nat
  chunk_overlap : Nat
deriving DecidableEq, Repr

/-- Chunk identifier: Python `f"{doc_id}_{i}" if doc_id else f"chunk_{i}"`.
`doc_id` is falsy when it is `None` or the empty string. -/
def mkChunkId (docId : Option String) (i : Nat) : String :=
  match docId with
  | some d => if d = "" then "chunk_" ++ pyStr i else d ++ "_" ++ pyStr i
  | none => "chunk_" ++ pyStr i

/-- The chunk dictionary built for the `i`-th raw chunk in the
`for i, chunk in enumerate(raw_chunks)` loop of `chunk_text`. -/
def mkChunkData (cfg : TextChunker) (docId : Option String) (i : Nat) (t : String) : Chunk :=
  { text := t
    chunk_id := mkChunkId docId i
    doc_id := docId
    chunk_index := i
    char_count := t.length
    word_count := pyWordCount t
    chunk_size_config := cfg.chunk_size
    chunk_overlap_config := cfg.chunk_overlap }

/-- The enumerate loop of `chunk_text`, with `i` the running index. -/
def buildChunks (cfg : TextChunker) (docId : Option String) : Nat → List String → List Chunk
  | _, [] => []
  | i, t :: ts => mkChunkData cfg docId i t :: buildChunks cfg docId (i + 1) ts

/-- `TextChunker.chunk_text`: returns `[]` on empty or whitespace-only
input, otherwise enriches each raw chunk produced by the (external)
splitter with metadata.  `splitter` stands for
`self.splitter.split_text`. -/
def chunk_text (cfg : TextChunker) (splitter : String → List String)
    (text : String) (docId : Option String) : List Chunk :=
  if pyIsBlank text then [] else buildChunks cfg docId 0 (splitter text)

theorem mkChunkId_injective (docId : Option String) :
    Function.Injective (mkChunkId docId) := by
  intro i j h
  unfold mkChunkId at h
  apply pyStr_injective
  match docId with
  | none => exact string_append_left_cancel h
  | some d =>
    by_cases hd : d = "" <;> simp only [hd, if_pos, if_neg, ite_true, ite_false] at h
    · exact string_append_left_cancel h
    · have h' : (d ++ "_") ++ pyStr i = (d ++ "_") ++ pyStr j := by
        simpa [String.append_assoc] using h
      exact string_append_left_cancel h'

theorem buildChunks_length (cfg : TextChunker) (docId : Option String)
    (l : List String) (i : Nat) : (buildChunks cfg docId i l).length = l.length := by
  induction l generalizing i with
  | nil => rfl
  | cons t ts ih => simp [buildChunks, ih]

theorem buildChunks_getElem? (cfg : TextChunker) (docId : Option String) :
    ∀ (l : List String) (i j : Nat),
      (buildChunks cfg docId i l)[j]? =
        (l[j]?).map (fun t => mkChunkData cfg docId (i + j) t) := by
  intro l
  induction l with
  | nil => intro i j; simp [buildChunks]
  | cons t ts ih =>
    intro i j
    cases j with
    | zero => simp [buildChunks]
    | succ j =>
      simp only [buildChunks, List.getElem?_cons_succ, ih (i + 1) j]
      have harith : i + 1 + j = i + (j + 1) := by omega
      rw [harith]

theorem buildChunks_index_ge (cfg : TextChunker) (docId : Option String) :
    ∀ (l : List String) (i : Nat) (c : Chunk), c ∈ buildChunks cfg docId i l →
      i ≤ c.chunk_index := by
  intro l
  induction l with
  | nil => intro i c hc; simp [buildChunks] at hc
  | cons t ts ih =>
    intro i c hc
    simp only [buildChunks, List.mem_cons] at hc
    rcases hc with rfl | hc
    · simp [mkChunkData]
    · have := ih (i + 1) c hc
      omega

theorem buildChunks_pairwise_lt (cfg : TextChunker) (docId : Option String) :
    ∀ (l : List String) (i : Nat),
      (buildChunks cfg docId i l).Pairwise (fun a b => a.chunk_index < b.chunk_index) := by
  intro l
  induction l with
  | nil => intro i; simp [buildChunks]
  | cons t ts ih =>
    intro i
    simp only [buildChunks, List.pairwise_cons]
    refine ⟨fun b hb => ?_, ih (i + 1)⟩
    have := buildChunks_index_ge cfg docId ts (i + 1) b hb
    simp only [mkChunkData]
    omega

theorem buildChunks_mem_id (cfg : TextChunker) (docId : Option String) :
    ∀ (l : List String) (i : Nat) (c : Chunk), c ∈ buildChunks cfg docId i l →
      c.chunk_id = mkChunkId docId c.chunk_index := by
  intro l
  induction l with
  | nil => intro i c hc; simp [buildChunks] at hc
  | cons t ts ih =>
    intro i c hc
    simp only [buildChunks, List.mem_cons] at hc
    rcases hc with rfl | hc
    · rfl
    · exact ih (i + 1) c hc

/-! ### Embedder (`src/pipeline/enhanced_embedder.py`) -/

/-- Output of `EmbeddingGenerator.generate_embeddings` for one chunk:
Python copies the chunk dict (`chunk.copy()`) and `update`s it with the
embedding fields, so the output carries every input field unchanged
(`toChunk`) plus the added embedding data.  Vector components are
modelled as rationals. -/
structure EmbeddedChunk where
  toChunk : Chunk
  embedding : List ℚ
  embedding_model : String
  embedding_dimension : Nat
  embedding_id : String
deriving DecidableEq, Repr

/-- `EmbeddingGenerator.generate_embeddings`.  `encode` stands for
`self.model.encode` (the external sentence-transformers capability, which
may fail: lazy model loading raises on first use); per its contract it
returns one vector per input string.  The function returns `[]` without
touching the model when `chunks` is empty, and otherwise re-raises
(`Except.error`) any model failure. -/
def generate_embeddings (model_name : String)
    (encode : List String → Except String (List (List ℚ)))
    (chunks : List Chunk) : Except String (List EmbeddedChunk) :=
  if chunks.isEmpty then Except.ok []
  else
    let texts := chunks.map (fun c => c.text)
    match encode texts with
    | Except.error e => Except.error e
    | Except.ok embeddings =>
      Except.ok ((chunks.zip embeddings).map (fun p =>
        { toChunk := p.1
          embedding := p.2
          embedding_model := model_name
          embedding_dimension := p.2.length
          embedding_id := p.1.chunk_id ++ "_emb" }))

/-! ### Vector index (`src/pipeline/enhanced_vector_db.py`)

The ChromaDB persistent collection is an external capability; per the
specification it stores text plus flat scalar metadata under an id and
answers "k nearest by distance" queries with an optional metadata
pre-filter.  `collection_add` and `collection_query` model that
capability; the distance function of the collection's embedding model is
a parameter. -/

/-- Flat scalar metadata stored with each record, exactly the mapping
built in `add_documents_with_metadata`. -/
structure RecordMetadata where
  doc_id : Option String
  chunk_index : Nat
  char_count : Nat
  word_count : Nat
  chunk_size_config : Nat
  chunk_overlap_config : Nat
  embedding_model : String
  embedding_dimension : Nat
deriving DecidableEq, Repr

/-- One persisted record of the collection. -/
structure IndexedRecord where
  id : String
  document : String
  metadata : RecordMetadata
deriving DecidableEq, Repr

/-- The ChromaDB collection state. -/
structure Collection where
  records : List IndexedRecord
deriving DecidableEq, Repr

/-- Model of `self.collection.add(documents=..., ids=..., metadatas=...)`:
a single call to the external persistence capability; it either stores
every record or raises (`addFail` injects a backend failure, e.g. the
persistence location being unreachable). -/
def collection_add (addFail : Option String) (c : Collection)
    (rs : List IndexedRecord) : Except String Collection :=
  match addFail with
  | some e => Except.error e
  | none => Except.ok ⟨c.records ++ rs⟩

/-- Model of `self.collection.query(query_texts=[q], n_results=k,
where=...)`: restrict to the `where` candidates, order by distance to the
query (ascending, i.e. nearest first), return the first `k` with their
distances.  `dist q doc` is the distance the collection's embedding
model reports between query text `q` and stored document `doc`. -/
def collection_query (dist : String → String → ℚ) (c : Collection)
    (query_text : String) (n_results : Nat) (whereDoc : Option String) :
    List (IndexedRecord × ℚ) :=
  let candidates :=
    match whereDoc with
    | some x => c.records.filter (fun r => decide (r.metadata.doc_id = some x))
    | none => c.records
  let sorted := List.insertionSort
    (fun a b => dist query_text a.document ≤ dist query_text b.document) candidates
  (sorted.take n_results).map (fun r => (r, dist query_text r.document))

/-- `EnhancedVectorDB` configuration fields. -/
structure EnhancedVectorDB where
  collection_name : String
  persist_dir : String
  embedding_model : String
deriving DecidableEq, Repr

/-- Result dictionary of `add_documents_with_metadata`: a `success` dict
(`chunks_stored`, `collection_name`, `embedding_references`, `doc_ids`)
or an error dict (`status: error` with a message). -/
inductive StoreResult where
  | success (chunks_stored : Nat) (collection_name : String)
      (embedding_references : List String) (doc_ids : List String)
  | error (message : String)
deriving DecidableEq, Repr

/-- The metadata dict prepared for one chunk inside
`add_documents_with_metadata` (the `chunk.get(...)` defaults never fire
for chunks built by the chunker/embedder, whose dicts carry every key). -/
def mkRecordMetadata (ch : EmbeddedChunk) : RecordMetadata :=
  { doc_id := ch.toChunk.doc_id
    chunk_index := ch.toChunk.chunk_index
    char_count := ch.toChunk.char_count
    word_count := ch.toChunk.word_count
    chunk_size_config := ch.toChunk.chunk_size_config
    chunk_overlap_config := ch.toChunk.chunk_overlap_config
    embedding_model := ch.embedding_model
    embedding_dimension := ch.embedding_dimension }

/-- The record handed to `collection.add` for one chunk. -/
def mkIndexedRecord (ch : EmbeddedChunk) : IndexedRecord :=
  { id := ch.toChunk.chunk_id
    document := ch.toChunk.text
    metadata := mkRecordMetadata ch }

/-- `list(set(chunk.get('doc_id') for chunk in chunks if chunk.get('doc_id')))`:
the distinct truthy doc ids (Python set order is modelled as `dedup`). -/
def distinctDocIds (chunks : List EmbeddedChunk) : List String :=
  (chunks.filterMap (fun ch =>
    match ch.toChunk.doc_id with
    | some d => if d = "" then none else some d
    | none => none)).dedup

/-- `EnhancedVectorDB.add_documents_with_metadata`: empty input yields the
`No chunks provided` error dict; otherwise the prepared records go to the
collection in one `add` call, and any exception from it is caught and
converted into an error dict (the collection is then unchanged).  Returns
the result dict together with the resulting collection state. -/
def add_documents_with_metadata (db : EnhancedVectorDB) (addFail : Option String)
    (c : Collection) (chunks : List EmbeddedChunk) : StoreResult × Collection :=
  if chunks.isEmpty then (StoreResult.error "No chunks provided", c)
  else
    match collection_add addFail c (chunks.map mkIndexedRecord) with
    | Except.error e => (StoreResult.error e, c)
    | Except.ok c' =>
      (StoreResult.success chunks.length db.collection_name
        (chunks.map (fun ch => ch.toChunk.chunk_id)) (distinctDocIds chunks), c')

/-- One formatted query result item built by `query_with_metadata`. -/
structure QueryResultItem where
  chunk_id : String
  text : String
  similarity_score : ℚ
  metadata : RecordMetadata
deriving DecidableEq, Repr

/-- Return dictionary of `query_with_metadata`: the formatted results
(`query`, `total_results`, `results`) or, when the collection raises, the
caught-exception error dict. -/
inductive QueryOutput where
  | ok (query : String) (total_results : Nat) (results : List QueryResultItem)
  | error (message : String)
deriving DecidableEq, Repr

def QueryOutput.resultsList : QueryOutput → List QueryResultItem
  | QueryOutput.ok _ _ rs => rs
  | QueryOutput.error _ => []

def QueryOutput.totalResults : QueryOutput → Nat
  | QueryOutput.ok _ t _ => t
  | QueryOutput.error _ => 0

/-- `EnhancedVectorDB.query_with_metadata`.  `qFail` models an exception
raised by the underlying collection (caught and turned into the error
dict); on the normal path the `where` clause is built by
`if doc_id_filter:` — Python truthiness, so `None` and the empty string
both mean "no filter" — and each raw hit is formatted with
`similarity_score = 1 - distance`. -/
def query_with_metadata (dist : String → String → ℚ) (qFail : Option String)
    (db : EnhancedVectorDB) (c : Collection) (query_text : String)
    (n_results : Nat) (doc_id_filter : Option String) : QueryOutput :=
  match qFail with
  | some e => QueryOutput.error e
  | none =>
    let whereClause : Option String :=
      match doc_id_filter with
      | some x => if x = "" then none else some x
      | none => none
    let raw := collection_query dist c query_text n_results whereClause
    QueryOutput.ok query_text raw.length
      (raw.map (fun rd =>
        { chunk_id := rd.1.id
          text := rd.1.document
          similarity_score := 1 - rd.2
          metadata := rd.1.metadata }))

/-! ### Pipeline orchestrator (`src/pipeline/enhanced_pipeline.py`) -/

/-- Last `/`-separated component of a path without its final suffix,
modelling Python's `Path(file_path).stem` (a leading dot alone does not
start a suffix). -/
def pyStem (p : String) : String :=
  let name := ((p.split (fun ch => ch = '/')).getLast?).getD p
  let dotIdxs := (name.data.enum.filter (fun ic => ic.2 = '.')).map (fun ic => ic.1)
  match dotIdxs.getLast? with
  | some i => if i = 0 then name else ⟨name.data.take i⟩
  | none => name

/-- Default document id when `doc_id is None`:
`Path(file_path).stem.replace(" ", "_")`. -/
def deriveDocId (file_path : String) (docId? : Option String) : String :=
  match docId? with
  | some d => d
  | none => (pyStem file_path).replace " " "_"

/-- The `embeddings_reference` sub-dictionary of a success result. -/
structure EmbeddingsReference where
  collection_name : String
  chunk_ids : List String
  embedding_model : String
  embedding_dimension : Nat
deriving DecidableEq, Repr

/-- The `processing_stats` sub-dictionary of a success result.
`avg_chunk_size` is Python float division, modelled exactly on ℚ. -/
structure ProcessingStats where
  original_text_length : Nat
  clean_text_length : Nat
  total_chunks : Nat
  avg_chunk_size : ℚ
  chunk_size_config : Nat
  chunk_overlap_config : Nat
deriving DecidableEq, Repr

/-- Return dictionary of `NLPPipeline.process_document`: the success
shape, or the `except` branch's `{status: error, file_path, doc_id,
error}` shape. -/
inductive PipelineOutput where
  | success (file_path doc_id clean_text : String)
      (chunks : List EmbeddedChunk)
      (embeddings_reference : EmbeddingsReference)
      (vector_db_info : StoreResult)
      (processing_stats : ProcessingStats)
  | error (file_path doc_id error_msg : String)
deriving DecidableEq, Repr

/-- The `status` field of the returned dictionary. -/
def PipelineOutput.statusString : PipelineOutput → String
  | PipelineOutput.success .. => "success"
  | PipelineOutput.error .. => "error"

/-- The `vector_db_info` field, present only on the success shape. -/
def PipelineOutput.vectorDbInfo? : PipelineOutput → Option StoreResult
  | PipelineOutput.success _ _ _ _ _ info _ => some info
  | PipelineOutput.error .. => none

/-- `NLPPipeline` configuration (chunker, embedder model, vector db). -/
structure NLPPipeline where
  chunker : TextChunker
  embedder_model : String
  vector_db : EnhancedVectorDB
deriving DecidableEq, Repr

/-- `NLPPipeline.process_document`.  External collaborators are explicit:
`handle_file_upload` (text extraction, may raise), `normalize_text`
(never fails per its contract), `splitter` (the langchain splitter used
by the chunker), `encode` (the embedding model, may raise), and
`addFail` (a failure of the collection's persistence backend).  The body
mirrors the `try` block: extraction, normalization, chunking and
embedding failures are caught and become the error dictionary, while
storage runs inside `add_documents_with_metadata`, which catches its own
exceptions and returns a status dict, so the pipeline continues to the
success dictionary with that dict as `vector_db_info`. -/
def process_document (handle_file_upload : String → Except String String)
    (normalize_text : String → String) (splitter : String → List String)
    (encode : List String → Except String (List (List ℚ)))
    (addFail : Option String) (pl : NLPPipeline) (c : Collection)
    (file_path : String) (docId? : Option String) : PipelineOutput × Collection :=
  let doc_id := deriveDocId file_path docId?
  match handle_file_upload file_path with
  | Except.error e => (PipelineOutput.error file_path doc_id e, c)
  | Except.ok raw_text =>
    let clean_text := normalize_text raw_text
    let chunks := chunk_text pl.chunker splitter clean_text (some doc_id)
    match generate_embeddings pl.embedder_model encode chunks with
    | Except.error e => (PipelineOutput.error file_path doc_id e, c)
    | Except.ok chunks_with_embeddings =>
      let stored := add_documents_with_metadata pl.vector_db addFail c chunks_with_embeddings
      (PipelineOutput.success file_path doc_id clean_text chunks_with_embeddings
        { collection_name := pl.vector_db.collection_name
          chunk_ids := chunks_with_embeddings.map (fun ch => ch.toChunk.chunk_id)
          embedding_model := pl.embedder_model
          embedding_dimension :=
            match chunks_with_embeddings.head? with
            | some ch => ch.embedding_dimension
            | none => 0 }
        stored.1
        { original_text_length := raw_text.length
          clean_text_length := clean_text.length
          total_chunks := chunks_with_embeddings.length
          avg_chunk_size :=
            if chunks_with_embeddings.isEmpty then 0
            else ((chunks_with_embeddings.map
                    (fun ch => (ch.toChunk.char_count : ℚ))).sum) /
                  (chunks_with_embeddings.length : ℚ)
          chunk_size_config := pl.chunker.chunk_size
          chunk_overlap_config := pl.chunker.chunk_overlap },
        stored.2)

/-! ### Response cache (`src/core/chatbot_engine.py`, `ResponseCache`)

The cache is a JSON dict persisted to `cache_dir/response_cache.json`;
the in-memory dict and the persisted copy are both modelled, writes to
the backing file being the `disk` field.  Wall-clock time
(`datetime.now()`) is an explicit rational parameter measured in hours,
matching `timedelta(hours=self.max_age_hours)`.  The MD5 fingerprint of
the key content is modelled by the content string itself (an injective
stand-in for a collision-free hash). -/

/-- One cache entry: `{timestamp, query, response, doc_context}`.  The
response payload is opaque to the cache (`α`). -/
structure CacheEntry (α : Type) where
  timestamp : ℚ
  query : String
  response : α
  doc_context : String
deriving DecidableEq, Repr

/-- Python `query.lower().strip()`. -/
def normalizeQuery (query : String) : String :=
  pyStrip (pyLower query)

/-- `ResponseCache._generate_key`: fingerprint of
`f"{query.lower().strip()}|{doc_context}"`. -/
def generate_key (query doc_context : String) : String :=
  normalizeQuery query ++ "|" ++ doc_context

/-- Python dict lookup on the cache mapping. -/
def dictGet {β : Type} (k : String) : List (String × β) → Option β
  | [] => none
  | (k', v) :: rest => if k' = k then some v else dictGet k rest

/-- Python dict assignment `d[k] = v` (overwrites in place, appends when
absent). -/
def dictInsert {β : Type} (k : String) (v : β) : List (String × β) → List (String × β)
  | [] => [(k, v)]
  | (k', v') :: rest => if k' = k then (k, v) :: rest else (k', v') :: dictInsert k v rest

/-- Python `del d[k]`. -/
def dictErase {β : Type} (k : String) : List (String × β) → List (String × β)
  | [] => []
  | (k', v') :: rest => if k' = k then rest else (k', v') :: dictErase k rest

/-- The `ResponseCache` state: configuration, in-memory dict, and the
persisted copy on disk. -/
structure ResponseCache (α : Type) where
  max_age_hours : ℚ
  cache : List (String × CacheEntry α)
  disk : List (String × CacheEntry α)
deriving DecidableEq, Repr

/-- `ResponseCache.get`: a hit younger than `max_age_hours` returns the
stored response; an expired entry is deleted and the cache re-saved; a
miss returns `None`. -/
def ResponseCache.get {α : Type} (c : ResponseCache α) (now : ℚ)
    (query doc_context : String) : Option α × ResponseCache α :=
  let key := generate_key query doc_context
  match dictGet key c.cache with
  | some entry =>
    if now - entry.timestamp < c.max_age_hours then (some entry.response, c)
    else
      let cache' := dictErase key c.cache
      (none, { c with cache := cache', disk := cache' })
  | none => (none, c)

/-- `ResponseCache.set`: unconditionally overwrites the entry for the
fingerprint and saves the whole cache to disk before returning
(`doc_context[:100]` is the stored snippet). -/
def ResponseCache.set {α : Type} (c : ResponseCache α) (now : ℚ)
    (query : String) (response : α) (doc_context : String) : ResponseCache α :=
  let key := generate_key query doc_context
  let cache' := dictInsert key
    { timestamp := now
      query := query
      response := response
      doc_context := pyTake doc_context 100 } c.cache
  { c with cache := cache', disk := cache' }

/-! ### Confidence formatter (`src/core/chatbot_engine.py`,
`OptimizedChatbotEngine`) -/

/-- Response template `no_results` from `_load_response_templates`. -/
def template_no_results : String :=
  "I\x27m sorry, I couldn\x27t find specific information about that in our menu or restaurant details. Could you try asking about our dishes, hours, location, or services?"

/-- Response template `low_confidence`. -/
def template_low_confidence : String :=
  "I found some information that might be related to your question. Here\x27s what I have:"

/-- Response template `high_confidence`. -/
def template_high_confidence : String :=
  "Based on our menu and restaurant information, here\x27s what I found:"

/-- The `if len(content) > limit: content = content[:limit] + "..."`
truncation pattern shared by the three formatters. -/
def pyTruncate (limit : Nat) (s : String) : String :=
  if s.length > limit then pyTake s limit ++ "..." else s

/-- `OptimizedChatbotEngine._format_high_confidence_response`: 400-char
truncation, plus the related-information invitation when more than one
result exists. -/
def format_high_confidence_response (best : QueryResultItem)
    (results : List QueryResultItem) : String :=
  let content := pyTruncate 400 best.text
  let response := template_high_confidence ++ "\n\n" ++ content
  if results.length > 1 then
    response ++ "\n\nI also found some related information that might be helpful."
  else response

/-- `OptimizedChatbotEngine._format_medium_confidence_response`: 300-char
truncation with a refinement invitation (the `search_results` argument is
unused in the source body). -/
def format_medium_confidence_response (best : QueryResultItem) : String :=
  "I found some information that might help:\n\n" ++ pyTruncate 300 best.text ++
    "\n\nWould you like me to search for something more specific?"

/-- `OptimizedChatbotEngine._format_low_confidence_response`: 250-char
truncation prefixed by the `low_confidence` template. -/
def format_low_confidence_response (best : QueryResultItem) : String :=
  template_low_confidence ++ "\n\n" ++ pyTruncate 250 best.text ++
    "\n\nIf this doesn\x27t answer your question, please try rephrasing or ask about our menu, hours, or services."

/-- The response dictionary built by `_generate_optimized_response` (the
zero-results shape has no `query` key, hence `Option`). -/
structure ChatResponse where
  response : String
  confidence : ℚ
  source_documents : List QueryResultItem
  response_type : String
  query : Option String
deriving DecidableEq, Repr

/-- The zero-results response dictionary. -/
def noResultsResponse : ChatResponse :=
  { response := template_no_results
    confidence := 0
    source_documents := []
    response_type := "no_results"
    query := none }

/-- `OptimizedChatbotEngine._generate_optimized_response`, taking the
`total_results` field and `results` list of the search-results dict.
When `total_results` is nonzero the source indexes `results[0]`; `none`
models the `IndexError` that an empty list would raise there (callers
always pass `total_results = len(results)`). -/
def generate_optimized_response (query : String) (total_results : Nat)
    (results : List QueryResultItem) : Option ChatResponse :=
  if total_results = 0 then some noResultsResponse
  else
    match results with
    | [] => none
    | best :: _ =>
      let similarity_score := best.similarity_score
      if similarity_score > mkRat 8 10 then
        some { response := format_high_confidence_response best results
               confidence := similarity_score
               source_documents := results.take 3
               response_type := "high_confidence"
               query := some query }
      else if similarity_score > mkRat 5 10 then
        some { response := format_medium_confidence_response best
               confidence := similarity_score
               source_documents := results.take 3
               response_type := "medium_confidence"
               query := some query }
      else
        some { response := format_low_confidence_response best
               confidence := similarity_score
               source_documents := results.take 3
               response_type := "low_confidence"
               query := some query }

/-! ### Dictionary lemmas for the cache model -/

theorem dictGet_eq_none_of_not_mem {β : Type} (k : String) :
    ∀ l : List (String × β), k ∉ l.map Prod.fst → dictGet k l = none := by
  intro l
  induction l with
  | nil => intro _; rfl
  | cons p rest ih =>
    intro h
    simp only [List.map_cons, List.mem_cons] at h
    push_neg at h
    have hne : ¬ p.1 = k := fun he => h.1 he.symm
    simp only [dictGet, if_neg hne, ih h.2]

theorem dictGet_dictInsert_self {β : Type} (k : String) (v : β) :
    ∀ l : List (String × β), dictGet k (dictInsert k v l) = some v := by
  intro l
  induction l with
  | nil => simp [dictInsert, dictGet]
  | cons p rest ih =>
    by_cases hp : p.1 = k
    · simp [dictInsert, hp, dictGet]
    · simp [dictInsert, hp, dictGet, ih]

theorem mem_keys_dictInsert {β : Type} (a k : String) (v : β) :
    ∀ l : List (String × β),
      a ∈ (dictInsert k v l).map Prod.fst → a = k ∨ a ∈ l.map Prod.fst := by
  intro l
  induction l with
  | nil => intro h; simpa [dictInsert] using h
  | cons p rest ih =>
    intro h
    by_cases hp : p.1 = k
    · simp only [dictInsert, if_pos hp, List.map_cons, List.mem_cons] at h
      rcases h with h | h
      · exact Or.inl h
      · exact Or.inr (by simp [h])
    · simp only [dictInsert, if_neg hp, List.map_cons, List.mem_cons] at h
      rcases h with h | h
      · exact Or.inr (by simp [h])
      · rcases ih h with h' | h'
        · exact Or.inl h'
        · exact Or.inr (by simp [h'])

theorem nodup_keys_dictInsert {β : Type} (k : String) (v : β) :
    ∀ l : List (String × β), (l.map Prod.fst).Nodup →
      ((dictInsert k v l).map Prod.fst).Nodup := by
  intro l
  induction l with
  | nil => intro _; simp [dictInsert]
  | cons p rest ih =>
    intro h
    simp only [List.map_cons, List.nodup_cons] at h
    by_cases hp : p.1 = k
    · simp only [dictInsert, if_pos hp, List.map_cons, List.nodup_cons]
      exact ⟨hp ▸ h.1, h.2⟩
    · simp only [dictInsert, if_neg hp, List.map_cons, List.nodup_cons]
      refine ⟨fun hmem => ?_, ih h.2⟩
      rcases mem_keys_dictInsert p.1 k v rest hmem with h' | h'
      · exact hp h'
      · exact h.1 h'

theorem dictGet_dictErase_self {β : Type} (k : String) :
    ∀ l : List (String × β), (l.map Prod.fst).Nodup →
      dictGet k (dictErase k l) = none := by
  intro l
  induction l with
  | nil => intro _; rfl
  | cons p rest ih =>
    intro h
    simp only [List.map_cons, List.nodup_cons] at h
    by_cases hp : p.1 = k
    · simp only [dictErase, if_pos hp]
      exact dictGet_eq_none_of_not_mem k rest (hp ▸ h.1)
    · simp only [dictErase, if_neg hp, dictGet, if_neg hp]
      exact ih h.2

/-! ### Claim C7: chunk indices are the zero-based positions and chunk
ids are distinct -/

/-- C7.  For every input text and document id, the chunk sequence
produced by `TextChunker.chunk_text` has `chunk_index` equal to the final
zero-based sequence position (hence strictly increasing and contiguous),
every `chunk_id` is derived from the doc id and that ordinal index by the
stable rule `mkChunkId`, and all chunk ids in the call are pairwise
distinct. -/
theorem chunk_index_and_id_unique (cfg : TextChunker)
    (splitter : String → List String) (text : String) (docId : Option String) :
    (∀ (i : Nat) (ch : Chunk), (chunk_text cfg splitter text docId)[i]? = some ch →
        ch.chunk_index = i)
    ∧ (∀ ch ∈ chunk_text cfg splitter text docId,
        ch.chunk_id = mkChunkId docId ch.chunk_index)
    ∧ (chunk_text cfg splitter text docId).Pairwise
        (fun a b => a.chunk_id ≠ b.chunk_id) := by
  unfold chunk_text
  by_cases hb : pyIsBlank text
  · simp [hb]
  · simp only [hb, Bool.false_eq_true, if_false]
    refine ⟨?_, ?_, ?_⟩
    · intro i ch hch
      rw [buildChunks_getElem?] at hch
      rcases List.getElem?_eq_some.mp (Option.map_eq_some'.mp hch).choose_spec.1 with ⟨_, _⟩
      have hspec := (Option.map_eq_some'.mp hch).choose_spec
      rw [← hspec.2]
      simp [mkChunkData]
    · intro ch hch
      exact buildChunks_mem_id cfg docId (splitter text) 0 ch hch
    · refine (buildChunks_pairwise_lt cfg docId (splitter text) 0).imp_of_mem ?_
      intro a b ha hb hlt heq
      have hida := buildChunks_mem_id cfg docId (splitter text) 0 a ha
      have hidb := buildChunks_mem_id cfg docId (splitter text) 0 b hb
      rw [hida, hidb] at heq
      have := mkChunkId_injective docId heq
      omega

/-- Concrete splitter used by witnesses (two raw chunks). -/
def witSplitter : String → List String := fun t => [⟨t.data.take 3⟩, ⟨t.data.drop 2⟩]

/-- Witness for C7 at a concrete chunking call. -/
theorem chunk_index_and_id_unique_witness :
    (∀ (i : Nat) (ch : Chunk),
        (chunk_text ⟨500, 50⟩ witSplitter "abcd" (some "doc"))[i]? = some ch →
        ch.chunk_index = i)
    ∧ (∀ ch ∈ chunk_text ⟨500, 50⟩ witSplitter "abcd" (some "doc"),
        ch.chunk_id = mkChunkId (some "doc") ch.chunk_index)
    ∧ (chunk_text ⟨500, 50⟩ witSplitter "abcd" (some "doc")).Pairwise
        (fun a b => a.chunk_id ≠ b.chunk_id) :=
  chunk_index_and_id_unique ⟨500, 50⟩ witSplitter "abcd" (some "doc")

/-! ### Claim C8: blank input yields the empty chunk sequence -/

/-- C8.  On empty or whitespace-only input text the chunker does not fail
and returns the empty sequence of chunks. -/
theorem chunk_text_blank_empty (cfg : TextChunker)
    (splitter : String → List String) (text : String) (docId : Option String)
    (h : pyIsBlank text = true) :
    chunk_text cfg splitter text docId = [] := by
  simp [chunk_text, h]

/-- Witness for C8 on a whitespace-only input. -/
theorem chunk_text_blank_empty_witness :
    pyIsBlank "  " = true ∧ chunk_text ⟨500, 50⟩ witSplitter "  " (some "doc") = [] :=
  ⟨by decide, chunk_text_blank_empty ⟨500, 50⟩ witSplitter "  " (some "doc") (by decide)⟩

/-! ### Claim C9: embedding enriches chunks without mutating them -/

/-- C9.  When the embedding capability returns one vector per input text,
`generate_embeddings` returns exactly one output per input chunk in the
same order; each output carries the corresponding input chunk unchanged
(`toChunk`, i.e. the input dict is copied, not mutated) together with the
added fields `embedding` (the i-th encoded vector), `embedding_model`,
and `embedding_dimension = len(embedding)`. -/
theorem generate_embeddings_enriches (model : String)
    (encode : List String → Except String (List (List ℚ)))
    (chunks : List Chunk) (embs : List (List ℚ))
    (henc : encode (chunks.map (fun ch => ch.text)) = Except.ok embs)
    (hlen : embs.length = chunks.length) :
    ∃ out, generate_embeddings model encode chunks = Except.ok out ∧
      out.map (fun ch => ch.toChunk) = chunks ∧
      out.map (fun ch => ch.embedding) = embs ∧
      (∀ ch ∈ out, ch.embedding_model = model ∧
        ch.embedding_dimension = ch.embedding.length ∧
        ch.embedding_id = ch.toChunk.chunk_id ++ "_emb") := by
  by_cases hc : chunks.isEmpty
  · rw [List.isEmpty_iff] at hc
    subst hc
    have hemb : embs = [] := List.eq_nil_of_length_eq_zero hlen
    subst hemb
    exact ⟨[], by simp [generate_embeddings], by simp, by simp, by simp⟩
  · refine ⟨(chunks.zip embs).map (fun p =>
      { toChunk := p.1
        embedding := p.2
        embedding_model := model
        embedding_dimension := p.2.length
        embedding_id := p.1.chunk_id ++ "_emb" }), ?_, ?_, ?_, ?_⟩
    · simp only [generate_embeddings, hc, Bool.false_eq_true, if_false, henc]
    · rw [List.map_map]
      have : ∀ p : Chunk × List ℚ,
          ((fun ch : EmbeddedChunk => ch.toChunk) ∘ (fun p : Chunk × List ℚ =>
            ({ toChunk := p.1
               embedding := p.2
               embedding_model := model
               embedding_dimension := p.2.length
               embedding_id := p.1.chunk_id ++ "_emb" } : EmbeddedChunk))) p = p.1 :=
        fun p => rfl
      rw [List.map_congr_left (fun p _ => this p)]
      exact List.map_fst_zip chunks embs (by omega)
    · rw [List.map_map]
      exact List.map_snd_zip chunks embs (by omega)
    · intro ch hch
      rcases List.mem_map.mp hch with ⟨p, _, rfl⟩
      exact ⟨rfl, rfl, rfl⟩

/-- Concrete embedding capability for witnesses: a fixed 2-vector per
input string. -/
def witEncode : List String → Except String (List (List ℚ)) :=
  fun ts => Except.ok (ts.map (fun _ => [1, 2]))

/-- Concrete chunks for the C9 witness. -/
def witChunks : List Chunk :=
  [mkChunkData ⟨500, 50⟩ (some "doc") 0 "hello", mkChunkData ⟨500, 50⟩ (some "doc") 1 "world"]

/-- Witness for C9 at a concrete embedding call. -/
theorem generate_embeddings_enriches_witness :
    witEncode (witChunks.map (fun ch => ch.text)) =
        Except.ok [[1, 2], [1, 2]] ∧
    ([[1, 2], [1, 2]] : List (List ℚ)).length = witChunks.length ∧
    (∃ out, generate_embeddings "all-MiniLM-L6-v2" witEncode witChunks = Except.ok out ∧
      out.map (fun ch => ch.toChunk) = witChunks ∧
      out.map (fun ch => ch.embedding) = [[1, 2], [1, 2]] ∧
      (∀ ch ∈ out, ch.embedding_model = "all-MiniLM-L6-v2" ∧
        ch.embedding_dimension = ch.embedding.length ∧
        ch.embedding_id = ch.toChunk.chunk_id ++ "_emb")) :=
  ⟨by rfl, by rfl,
    generate_embeddings_enriches "all-MiniLM-L6-v2" witEncode witChunks [[1, 2], [1, 2]]
      (by rfl) (by rfl)⟩

/-! ### Claim C10: empty normalized text yields a success result wrapping
a storage-stage error payload -/

/-- C10.  When extraction and normalization succeed but the normalized
text is empty or whitespace-only, `process_document` returns a `success`
result with zero chunks, `avg_chunk_size` 0, `embedding_dimension` 0,
and `vector_db_info = {status: error, message: "No chunks provided"}`;
the collection is untouched. -/
theorem process_document_empty_text_success
    (handle_file_upload : String → Except String String)
    (normalize_text : String → String) (splitter : String → List String)
    (encode : List String → Except String (List (List ℚ)))
    (addFail : Option String) (pl : NLPPipeline) (c : Collection)
    (file_path : String) (docId? : Option String) (raw : String)
    (hext : handle_file_upload file_path = Except.ok raw)
    (hblank : pyIsBlank (normalize_text raw) = true) :
    process_document handle_file_upload normalize_text splitter encode addFail pl c
        file_path docId? =
      (PipelineOutput.success file_path (deriveDocId file_path docId?)
        (normalize_text raw) []
        { collection_name := pl.vector_db.collection_name
          chunk_ids := []
          embedding_model := pl.embedder_model
          embedding_dimension := 0 }
        (StoreResult.error "No chunks provided")
        { original_text_length := raw.length
          clean_text_length := (normalize_text raw).length
          total_chunks := 0
          avg_chunk_size := 0
          chunk_size_config := pl.chunker.chunk_size
          chunk_overlap_config := pl.chunker.chunk_overlap }, c) := by
  simp [process_document, hext, chunk_text, hblank, generate_embeddings,
    add_documents_with_metadata]

/-- Witness for C10: a concrete run whose normalized text is blank. -/
theorem process_document_empty_text_success_witness :
    (fun _ : String => Except.ok (ε := String) "x ") "a.txt" = Except.ok "x " ∧
    pyIsBlank ((fun _ : String => "  ") "x ") = true ∧
    process_document (fun _ => Except.ok "x ") (fun _ => "  ") witSplitter witEncode
        none ⟨⟨500, 50⟩, "all-MiniLM-L6-v2", ⟨"documents", "./chroma_db", "all-MiniLM-L6-v2"⟩⟩
        ⟨[]⟩ "a.txt" (some "d") =
      (PipelineOutput.success "a.txt" "d" "  " []
        { collection_name := "documents"
          chunk_ids := []
          embedding_model := "all-MiniLM-L6-v2"
          embedding_dimension := 0 }
        (StoreResult.error "No chunks provided")
        { original_text_length := 2
          clean_text_length := 2
          total_chunks := 0
          avg_chunk_size := 0
          chunk_size_config := 500
          chunk_overlap_config := 50 }, ⟨[]⟩) :=
  ⟨rfl, by decide,
    process_document_empty_text_success (fun _ => Except.ok "x ") (fun _ => "  ")
      witSplitter witEncode none
      ⟨⟨500, 50⟩, "all-MiniLM-L6-v2", ⟨"documents", "./chroma_db", "all-MiniLM-L6-v2"⟩⟩
      ⟨[]⟩ "a.txt" (some "d") "x " rfl (by decide)⟩

/-! ### Claim C1: which stage failures produce the error result shape -/

/-- Fixture pipeline configuration for counterexamples and witnesses. -/
def cexPipeline : NLPPipeline :=
  ⟨⟨500, 50⟩, "all-MiniLM-L6-v2", ⟨"documents", "./chroma_db", "all-MiniLM-L6-v2"⟩⟩

/-- C1 counterexample.  A run in which extract, normalize, chunk and
embed succeed but the STORE stage's persistence backend fails: the
overall result still has `status = "success"` (the storage failure is
only reported inside `vector_db_info`), refuting the claim that a STORE
failure makes the overall result an error result. -/
theorem process_document_store_failure_cex :
    ((process_document (fun _ => Except.ok "hello world") (fun t => t) (fun t => [t])
        (fun ts => Except.ok (ts.map (fun _ => [1])))
        (some "database unreachable") cexPipeline ⟨[]⟩ "doc.txt" (some "d")).1.statusString
      = "success")
    ∧ ((process_document (fun _ => Except.ok "hello world") (fun t => t) (fun t => [t])
        (fun ts => Except.ok (ts.map (fun _ => [1])))
        (some "database unreachable") cexPipeline ⟨[]⟩ "doc.txt" (some "d")).1.vectorDbInfo?
      = some (StoreResult.error "database unreachable")) :=
  ⟨rfl, rfl⟩

/-- C1 (amended).  Failures of the EXTRACT or EMBED stages are caught by
the orchestrator and become the `{status: error, file_path, doc_id,
error}` result with the collection untouched (NORMALIZE and CHUNK cannot
raise in this embedding: `normalize_text` never fails per its contract
and the chunker is total); a STORE-stage failure does not: once
embedding succeeds the result always has `status = "success"`, with the
store outcome — error or not — reported in `vector_db_info`. -/
theorem process_document_stage_failures
    (handle_file_upload : String → Except String String)
    (normalize_text : String → String) (splitter : String → List String)
    (encode : List String → Except String (List (List ℚ)))
    (addFail : Option String) (pl : NLPPipeline) (c : Collection)
    (file_path : String) (docId? : Option String) :
    (∀ e, handle_file_upload file_path = Except.error e →
        process_document handle_file_upload normalize_text splitter encode addFail
            pl c file_path docId?
          = (PipelineOutput.error file_path (deriveDocId file_path docId?) e, c))
    ∧ (∀ raw e, handle_file_upload file_path = Except.ok raw →
        generate_embeddings pl.embedder_model encode
            (chunk_text pl.chunker splitter (normalize_text raw)
              (some (deriveDocId file_path docId?))) = Except.error e →
        process_document handle_file_upload normalize_text splitter encode addFail
            pl c file_path docId?
          = (PipelineOutput.error file_path (deriveDocId file_path docId?) e, c))
    ∧ (∀ raw cwe, handle_file_upload file_path = Except.ok raw →
        generate_embeddings pl.embedder_model encode
            (chunk_text pl.chunker splitter (normalize_text raw)
              (some (deriveDocId file_path docId?))) = Except.ok cwe →
        ((process_document handle_file_upload normalize_text splitter encode addFail
            pl c file_path docId?).1.statusString = "success"
          ∧ (process_document handle_file_upload normalize_text splitter encode addFail
              pl c file_path docId?).1.vectorDbInfo?
            = some (add_documents_with_metadata pl.vector_db addFail c cwe).1)) := by
  refine ⟨?_, ?_, ?_⟩
  · intro e he
    simp [process_document, he]
  · intro raw e hraw hemb
    simp [process_document, hraw, hemb]
  · intro raw cwe hraw hemb
    simp [process_document, hraw, hemb, PipelineOutput.statusString,
      PipelineOutput.vectorDbInfo?]

/-- Witness for C1 (amended): concrete extract-stage and embed-stage
failures produce the error-shaped result. -/
theorem process_document_stage_failures_witness :
    process_document (fun _ => Except.error "boom") (fun t => t) witSplitter witEncode
        none cexPipeline ⟨[]⟩ "f.txt" (some "d")
      = (PipelineOutput.error "f.txt" "d" "boom", ⟨[]⟩)
    ∧ process_document (fun _ => Except.ok "hello") (fun t => t) witSplitter
        (fun _ => Except.error "model down") none cexPipeline ⟨[]⟩ "f.txt" (some "d")
      = (PipelineOutput.error "f.txt" "d" "model down", ⟨[]⟩) :=
  ⟨(process_document_stage_failures (fun _ => Except.error "boom") (fun t => t)
      witSplitter witEncode none cexPipeline ⟨[]⟩ "f.txt" (some "d")).1 "boom" rfl,
   (process_document_stage_failures (fun _ => Except.ok "hello") (fun t => t)
      witSplitter (fun _ => Except.error "model down") none cexPipeline ⟨[]⟩ "f.txt"
      (some "d")).2.1 "hello" "model down" rfl rfl⟩

/-! ### Claim C2: storage failure reporting and batch atomicity -/

/-- Fixture vector-db configuration. -/
def cexDb : EnhancedVectorDB := ⟨"documents", "./chroma_db", "all-MiniLM-L6-v2"⟩

/-- Fixture embedded chunk. -/
def cexEmbChunk : EmbeddedChunk :=
  ⟨mkChunkData ⟨500, 50⟩ (some "d") 0 "hello", [1], "all-MiniLM-L6-v2", 1, "d_0_emb"⟩

/-- C2 counterexample.  With the persistence backend unreachable,
`add_documents_with_metadata` does not fail with a `StorageError`
exception (no such class exists in the repository): it catches the
backend failure and returns the `{status: error, message}` dictionary as
a normal value, the collection left unchanged. -/
theorem add_documents_storage_failure_cex :
    add_documents_with_metadata cexDb (some "persistence unreachable") ⟨[]⟩ [cexEmbChunk]
      = (StoreResult.error "persistence unreachable", ⟨[]⟩) :=
  rfl

/-- C2 (amended).  On a persistence failure the add call reports an
error-status result (rather than raising `StorageError`), and the batch
is all-or-nothing: on failure no record of the call is stored (the
collection is unchanged) and on success every record is appended; a
partial batch is never applied, silently or otherwise. -/
theorem add_documents_atomicity (db : EnhancedVectorDB) (addFail : Option String)
    (c : Collection) (chunks : List EmbeddedChunk) :
    (∀ e, addFail = some e → chunks ≠ [] →
        add_documents_with_metadata db addFail c chunks = (StoreResult.error e, c))
    ∧ (addFail = none → chunks ≠ [] →
        add_documents_with_metadata db addFail c chunks
          = (StoreResult.success chunks.length db.collection_name
              (chunks.map (fun ch => ch.toChunk.chunk_id)) (distinctDocIds chunks),
             ⟨c.records ++ chunks.map mkIndexedRecord⟩))
    ∧ ((add_documents_with_metadata db addFail c chunks).2 = c ∨
        (add_documents_with_metadata db addFail c chunks).2.records
          = c.records ++ chunks.map mkIndexedRecord) := by
  refine ⟨?_, ?_, ?_⟩
  · intro e he hne
    have : chunks.isEmpty = false := by
      cases chunks with
      | nil => exact absurd rfl hne
      | cons a l => rfl
    simp [add_documents_with_metadata, this, he, collection_add]
  · intro he hne
    have : chunks.isEmpty = false := by
      cases chunks with
      | nil => exact absurd rfl hne
      | cons a l => rfl
    simp [add_documents_with_metadata, this, he, collection_add]
  · by_cases hc : chunks.isEmpty
    · left; simp [add_documents_with_metadata, hc]
    · cases haf : addFail with
      | some e =>
        left
        simp [add_documents_with_metadata, hc, haf, collection_add]
      | none =>
        right
        simp [add_documents_with_metadata, hc, haf, collection_add]

/-- Witness for C2 (amended): the two batch outcomes at concrete inputs. -/
theorem add_documents_atomicity_witness :
    add_documents_with_metadata cexDb (some "down") ⟨[]⟩ [cexEmbChunk]
      = (StoreResult.error "down", ⟨[]⟩)
    ∧ add_documents_with_metadata cexDb none ⟨[]⟩ [cexEmbChunk]
      = (StoreResult.success 1 "documents" ["d_0"] ["d"],
         ⟨[mkIndexedRecord cexEmbChunk]⟩) :=
  ⟨(add_documents_atomicity cexDb (some "down") ⟨[]⟩ [cexEmbChunk]).1 "down" rfl
      (by decide),
   by
    have h := (add_documents_atomicity cexDb none ⟨[]⟩ [cexEmbChunk]).2.1 rfl (by decide)
    simpa using h⟩

/-! ### Claim C3: confidence bucketing of the best similarity score -/

/-- Fixture result item with a low similarity score. -/
def cexLowItem : QueryResultItem :=
  ⟨"d_0", "menu info", mkRat 3 10, ⟨some "d", 0, 9, 2, 500, 50, "all-MiniLM-L6-v2", 384⟩⟩

/-- C3 counterexample.  With one result whose best score is 0.3 (≤ 0.5),
the engine does not return the generic not-found template: it returns a
`low_confidence` response that embeds the (250-char-truncated) match
content after the low-confidence template. -/
theorem confidence_low_bucket_cex :
    (generate_optimized_response "what" 1 [cexLowItem]).map
        (fun r => r.response_type) = some "low_confidence"
    ∧ (generate_optimized_response "what" 1 [cexLowItem]).map
        (fun r => r.response) ≠ some template_no_results
    ∧ (generate_optimized_response "what" 1 [cexLowItem]).map
        (fun r => r.response)
      = some (template_low_confidence ++ "\n\nmenu info\n\nIf this doesn\x27t answer your question, please try rephrasing or ask about our menu, hours, or services.") := by
  refine ⟨by decide, by decide, by decide⟩

/-- C3 (amended).  For a nonempty result list with `total_results` equal
to its length: a best score strictly above 0.8 yields the
high-confidence response (400-char truncation plus the related-results
invitation when more than one result exists); a best score in (0.5, 0.8]
yields the tentatively framed medium-confidence response (300-char
truncation inviting refinement); a best score of at most 0.5 yields the
low-confidence response — the low-confidence template followed by the
content truncated at 250 chars, not the generic not-found template; the
generic not-found template is returned exactly when `total_results` is
zero.  Truncation appends the `"..."` ellipsis marker precisely when the
content exceeds the bucket limit. -/
theorem confidence_bucketing (q : String) (best : QueryResultItem)
    (rest : List QueryResultItem) :
    (best.similarity_score > mkRat 8 10 →
        generate_optimized_response q (best :: rest).length (best :: rest)
          = some ⟨format_high_confidence_response best (best :: rest),
              best.similarity_score, (best :: rest).take 3, "high_confidence", some q⟩)
    ∧ (best.similarity_score ≤ mkRat 8 10 → best.similarity_score > mkRat 5 10 →
        generate_optimized_response q (best :: rest).length (best :: rest)
          = some ⟨format_medium_confidence_response best,
              best.similarity_score, (best :: rest).take 3, "medium_confidence", some q⟩)
    ∧ (best.similarity_score ≤ mkRat 5 10 →
        generate_optimized_response q (best :: rest).length (best :: rest)
          = some ⟨format_low_confidence_response best,
              best.similarity_score, (best :: rest).take 3, "low_confidence", some q⟩)
    ∧ (∀ rs : List QueryResultItem,
        generate_optimized_response q 0 rs = some noResultsResponse)
    ∧ (∀ (limit : Nat) (s : String),
        (s.length > limit → pyTruncate limit s = pyTake s limit ++ "...")
        ∧ (s.length ≤ limit → pyTruncate limit s = s)) := by
  refine ⟨?_, ?_, ?_, ?_, ?_⟩
  · intro hhigh
    simp [generate_optimized_response, hhigh]
  · intro hle hmed
    simp [generate_optimized_response, hmed, not_lt.mpr hle]
  · intro hlow
    have h58 : mkRat 5 10 ≤ mkRat 8 10 := by decide
    have h8 : ¬ best.similarity_score > mkRat 8 10 :=
      not_lt.mpr (le_trans hlow h58)
    simp [generate_optimized_response, h8, not_lt.mpr hlow]
  · intro rs
    simp [generate_optimized_response]
  · intro limit s
    constructor
    · intro hgt
      simp [pyTruncate, hgt]
    · intro hle
      simp [pyTruncate, not_lt.mpr hle]

/-- Fixture result item with a high similarity score. -/
def cexHighItem : QueryResultItem :=
  ⟨"d_1", "opening hours", mkRat 9 10, ⟨some "d", 1, 13, 2, 500, 50, "all-MiniLM-L6-v2", 384⟩⟩

/-- Witness for C3 (amended): the high and low buckets at concrete
scores. -/
theorem confidence_bucketing_witness :
    (mkRat 9 10 > mkRat 8 10
      ∧ generate_optimized_response "hours" 1 [cexHighItem]
        = some ⟨format_high_confidence_response cexHighItem [cexHighItem],
            mkRat 9 10, [cexHighItem], "high_confidence", some "hours"⟩)
    ∧ (mkRat 3 10 ≤ mkRat 5 10
      ∧ generate_optimized_response "what" 1 [cexLowItem]
        = some ⟨format_low_confidence_response cexLowItem,
            mkRat 3 10, [cexLowItem], "low_confidence", some "what"⟩) :=
  ⟨⟨by decide,
    (confidence_bucketing "hours" cexHighItem []).1 (by decide)⟩,
   ⟨by decide,
    (confidence_bucketing "what" cexLowItem []).2.2.1 (by decide)⟩⟩

/-! ### Claim C6: cache set/get round trip and expiry -/

/-- C6.  `set` at time `T` overwrites any prior entry for the
fingerprint with the new entry and persists the cache before returning;
a `get` with the same normalized query and context strictly before
`T + max_age` returns exactly the stored response; a `get` strictly
after `T + max_age` returns absent, evicts the entry, and persists the
eviction.  (`hnd` is the dict well-formedness invariant: Python dict
keys are unique.) -/
theorem cache_set_get_expiry {α : Type} (c : ResponseCache α)
    (q q' ctx : String) (resp : α) (T : ℚ)
    (hnd : (c.cache.map Prod.fst).Nodup) :
    (dictGet (generate_key q ctx) (c.set T q resp ctx).cache
        = some ⟨T, q, resp, pyTake ctx 100⟩)
    ∧ (c.set T q resp ctx).disk = (c.set T q resp ctx).cache
    ∧ (∀ now : ℚ, normalizeQuery q' = normalizeQuery q →
        now < T + c.max_age_hours →
        ((c.set T q resp ctx).get now q' ctx).1 = some resp)
    ∧ (∀ now : ℚ, normalizeQuery q' = normalizeQuery q →
        T + c.max_age_hours < now →
        ((c.set T q resp ctx).get now q' ctx).1 = none
        ∧ dictGet (generate_key q ctx) ((c.set T q resp ctx).get now q' ctx).2.cache = none
        ∧ ((c.set T q resp ctx).get now q' ctx).2.disk
            = ((c.set T q resp ctx).get now q' ctx).2.cache) := by
  refine ⟨?_, rfl, ?_, ?_⟩
  · exact dictGet_dictInsert_self (generate_key q ctx) _ c.cache
  · intro now hq hfresh
    have hkeys : generate_key q' ctx = generate_key q ctx := by
      simp [generate_key, hq]
    simp only [ResponseCache.get, ResponseCache.set, hkeys,
      dictGet_dictInsert_self]
    rw [if_pos (by linarith)]
  · intro now hq hstale
    have hkeys : generate_key q' ctx = generate_key q ctx := by
      simp [generate_key, hq]
    have hcond : ¬ (now - T < c.max_age_hours) := by
      push_neg
      linarith
    simp only [ResponseCache.get, ResponseCache.set, hkeys,
      dictGet_dictInsert_self, hcond, if_false]
    refine ⟨trivial, ?_, trivial⟩
    exact dictGet_dictErase_self (generate_key q ctx) _
      (nodup_keys_dictInsert (generate_key q ctx) _ c.cache hnd)

/-- Witness for C6: an empty 24-hour cache, `set` at time 0, a hit at
time 2 under a differently-cased query, expiry and eviction at time 30. -/
theorem cache_set_get_expiry_witness :
    ((([] : List (String × CacheEntry Nat)).map Prod.fst).Nodup
    ∧ normalizeQuery "hello" = normalizeQuery "Hello "
    ∧ (2 : ℚ) < 0 + 24 ∧ (0 : ℚ) + 24 < 30)
    ∧ (dictGet (generate_key "Hello " "mnu")
        ((ResponseCache.mk (α := Nat) 24 [] []).set 0 "Hello " 7 "mnu").cache
        = some ⟨0, "Hello ", 7, pyTake "mnu" 100⟩)
    ∧ (((ResponseCache.mk (α := Nat) 24 [] []).set 0 "Hello " 7 "mnu").get 2 "hello" "mnu").1
        = some 7
    ∧ (((ResponseCache.mk (α := Nat) 24 [] []).set 0 "Hello " 7 "mnu").get 30 "hello" "mnu").1
        = none := by
  have h := cache_set_get_expiry (ResponseCache.mk (α := Nat) 24 [] [])
    "Hello " "hello" "mnu" 7 0 (by decide)
  exact ⟨⟨by decide, by decide, by norm_num, by norm_num⟩, h.1,
    h.2.2.1 2 (by decide) (by norm_num), (h.2.2.2 30 (by decide) (by norm_num)).1⟩

/-! ### Claim C4: the doc_id filter is a pre-filter -/

/-- Fixture record owned by document `"d"`. -/
def cexRecord : IndexedRecord :=
  ⟨"d_0", "hello", ⟨some "d", 0, 5, 1, 500, 50, "all-MiniLM-L6-v2", 384⟩⟩

/-- Fixture record owned by document `"e"`. -/
def cexRecord2 : IndexedRecord :=
  ⟨"e_0", "world", ⟨some "e", 0, 5, 1, 500, 50, "all-MiniLM-L6-v2", 384⟩⟩

/-- C4 counterexample.  With `doc_id_filter = ""` (a legal value of `X`),
Python's `if doc_id_filter:` treats the filter as absent, and the query
returns a record whose `doc_id` is `"d" ≠ ""` — refuting the claim for
every `X`. -/
theorem query_empty_filter_cex :
    ((query_with_metadata (fun _ _ => 0) none cexDb ⟨[cexRecord]⟩ "q" 1
        (some "")).resultsList.map (fun item => item.metadata.doc_id)) = [some "d"]
    ∧ some "d" ≠ some ("" : String) :=
  ⟨by decide, by decide⟩

/-- C4 (amended).  For every non-empty filter value `X`, no returned
item has a metadata `doc_id` different from `X` (whether or not `X`
occurs in the collection), and the filter is applied before the
k-nearest selection: the number of results is `min k` (number of records
with `doc_id = X`), so up to `k` eligible matches are returned whenever
at least `k` exist.  (For `X = ""` the source treats the filter as
absent; see the counterexample.) -/
theorem query_doc_id_filter (dist : String → String → ℚ) (db : EnhancedVectorDB)
    (c : Collection) (q : String) (n : Nat) (X : String) (hX : X ≠ "") :
    (∀ item ∈ (query_with_metadata dist none db c q n (some X)).resultsList,
        item.metadata.doc_id = some X)
    ∧ (query_with_metadata dist none db c q n (some X)).resultsList.length
        = min n ((c.records.filter
            (fun r => decide (r.metadata.doc_id = some X))).length) := by
  haveI htot : IsTotal IndexedRecord
      (fun a b => dist q a.document ≤ dist q b.document) :=
    ⟨fun a b => le_total _ _⟩
  haveI htr : IsTrans IndexedRecord
      (fun a b => dist q a.document ≤ dist q b.document) :=
    ⟨fun a b c hab hbc => le_trans hab hbc⟩
  constructor
  · intro item hitem
    simp only [query_with_metadata, QueryOutput.resultsList, if_neg hX,
      collection_query, List.mem_map] at hitem
    rcases hitem with ⟨rd, hrd, rfl⟩
    rcases hrd with ⟨rec, hrec, rfl⟩
    have hsort : rec ∈ List.insertionSort
        (fun a b => dist q a.document ≤ dist q b.document)
        (c.records.filter (fun r => decide (r.metadata.doc_id = some X))) :=
      (List.take_sublist n _).subset hrec
    have hcand : rec ∈ c.records.filter (fun r => decide (r.metadata.doc_id = some X)) :=
      (List.perm_insertionSort _ _).subset hsort
    have := (List.mem_filter.mp hcand).2
    exact of_decide_eq_true this
  · simp only [query_with_metadata, QueryOutput.resultsList, if_neg hX,
      collection_query, List.length_map, List.length_take]
    rw [List.Perm.length_eq (List.perm_insertionSort _ _)]

/-- Witness for C4 (amended) on a two-document collection with filter
`"d"`. -/
theorem query_doc_id_filter_witness :
    ("d" : String) ≠ ""
    ∧ (∀ item ∈ (query_with_metadata (fun _ _ => 0) none cexDb
          ⟨[cexRecord, cexRecord2]⟩ "q" 5 (some "d")).resultsList,
        item.metadata.doc_id = some "d")
    ∧ (query_with_metadata (fun _ _ => 0) none cexDb
          ⟨[cexRecord, cexRecord2]⟩ "q" 5 (some "d")).resultsList.length
        = min 5 (((⟨[cexRecord, cexRecord2]⟩ : Collection).records.filter
            (fun r => decide (r.metadata.doc_id = some "d"))).length) := by
  have h := query_doc_id_filter (fun _ _ => 0) cexDb ⟨[cexRecord, cexRecord2]⟩
    "q" 5 "d" (by decide)
  exact ⟨by decide, h.1, h.2⟩

/-! ### Claim C5: similarity scores, ordering and result count -/

/-- C5.  On the non-raising path of `query_with_metadata`:
`total_results` equals the length of the returned result list; every
returned item's `similarity_score` is `1 -` the distance the index
reports for it; the results are ordered best match first (non-increasing
similarity); and a query against an empty collection returns
`total_results = 0` with an empty list and no exception. -/
theorem query_similarity_ranking (dist : String → String → ℚ)
    (db : EnhancedVectorDB) (c : Collection) (q : String) (n : Nat)
    (filt : Option String) :
    ((query_with_metadata dist none db c q n filt).totalResults
      = (query_with_metadata dist none db c q n filt).resultsList.length)
    ∧ (∀ item ∈ (query_with_metadata dist none db c q n filt).resultsList,
        item.similarity_score = 1 - dist q item.text)
    ∧ ((query_with_metadata dist none db c q n filt).resultsList.map
        (fun item => item.similarity_score)).Pairwise (fun a b => b ≤ a)
    ∧ query_with_metadata dist none db ⟨[]⟩ q n filt = QueryOutput.ok q 0 [] := by
  haveI htot : IsTotal IndexedRecord
      (fun a b => dist q a.document ≤ dist q b.document) :=
    ⟨fun a b => le_total _ _⟩
  haveI htr : IsTrans IndexedRecord
      (fun a b => dist q a.document ≤ dist q b.document) :=
    ⟨fun a b c hab hbc => le_trans hab hbc⟩
  refine ⟨?_, ?_, ?_, ?_⟩
  · simp [query_with_metadata, QueryOutput.totalResults, QueryOutput.resultsList]
  · intro item hitem
    simp only [query_with_metadata, QueryOutput.resultsList, collection_query,
      List.mem_map] at hitem
    rcases hitem with ⟨rd, hrd, rfl⟩
    rcases hrd with ⟨rec, _, rfl⟩
    rfl
  · have key : ∀ cand : List IndexedRecord,
        ((List.take n (List.insertionSort
            (fun a b => dist q a.document ≤ dist q b.document) cand)).map
          (fun rec => 1 - dist q rec.document)).Pairwise (fun a b : ℚ => b ≤ a) := by
      intro cand
      have hsorted : List.Pairwise (fun a b => dist q a.document ≤ dist q b.document)
          (List.insertionSort (fun a b => dist q a.document ≤ dist q b.document) cand) :=
        List.sorted_insertionSort _ cand
      have htake := List.Pairwise.sublist (List.take_sublist n _) hsorted
      exact List.Pairwise.map _ (fun a b hab => sub_le_sub_left hab 1) htake
    simp only [query_with_metadata, QueryOutput.resultsList, collection_query,
      List.map_map]
    exact key _
  · cases filt with
    | none => simp [query_with_metadata, collection_query]
    | some x =>
      by_cases hx : x = "" <;>
        simp [query_with_metadata, collection_query, hx]

/-- Distance capability fixture for the C5 witness. -/
def witDist : String → String → ℚ := fun _ doc => mkRat doc.length 10

/-- Witness for C5 at a concrete two-record collection. -/
theorem query_similarity_ranking_witness :
    ((query_with_metadata witDist none cexDb ⟨[cexRecord, cexRecord2]⟩ "q" 5
        none).totalResults
      = (query_with_metadata witDist none cexDb ⟨[cexRecord, cexRecord2]⟩ "q" 5
        none).resultsList.length)
    ∧ (∀ item ∈ (query_with_metadata witDist none cexDb ⟨[cexRecord, cexRecord2]⟩
          "q" 5 none).resultsList,
        item.similarity_score = 1 - witDist "q" item.text)
    ∧ ((query_with_metadata witDist none cexDb ⟨[cexRecord, cexRecord2]⟩ "q" 5
          none).resultsList.map (fun item => item.similarity_score)).Pairwise
        (fun a b => b ≤ a)
    ∧ query_with_metadata witDist none cexDb ⟨[]⟩ "q" 5 none
        = QueryOutput.ok "q" 0 [] :=
  query_similarity_ranking witDist cexDb ⟨[cexRecord, cexRecord2]⟩ "q" 5 none

end DocIngestion
